import Mathlib

/-!
Shallow embedding of the Pictionary word-picker
(src/src/PictionaryWordGenerator.tsx).

The component keeps its state in React `useState` hooks; we collect those
hooks into one record `GameState` and translate each event handler
(`selectRandomWord`, `startTimer`, `stopTimer`, `restartTimer`,
`changeTimerDuration`, `resetGame`) and the timer-interval callback into a
pure transition on that record.  The two relevant `useEffect` hooks — the
one persisting `usedWords` to `localStorage` and the one scheduling or
clearing the 1-second interval — are folded into the transitions as
explicit state updates (`storage`, `intervalScheduled`).

Randomness (`Math.random()`) is modelled by explicit rational draws in
`[0, 1)`; `selectRandomWordCore` additionally returns how many draws the
handler consumed, so that the short-circuit order of
`selected.category == 'random' ? true : Math.random() < ALL_PLAY_PROBABILITY`
is observable.

`localStorage` under the key `pictionary_used_words` is modelled as an
`Option String`; `JSON.stringify` of a string list and `JSON.parse` of the
kind of document the component stores are modelled character by character
(`stringifyWords`, `parseWordArray`).  `JSON.parse` throws on malformed
input; the model returns `Except.error` there.
-/

namespace Picto

/-- The serialized characters of one word, as produced by `JSON.stringify`
for a string containing no control characters: a quote and a backslash get
a backslash prefix, every other character is emitted as is. -/
def escChars : List Char → List Char
  | [] => []
  | c :: cs => if c = '"' ∨ c = '\\' then '\\' :: c :: escChars cs else c :: escChars cs

/-- The characters after the opening bracket of `JSON.stringify(ws)` for a
string list `ws`: quoted words separated by commas, then the closing
bracket.  `JSON.stringify` emits no whitespace. -/
def itemsChars : List String → List Char
  | [] => [']']
  | [w] => '"' :: (escChars w.data ++ ['"', ']'])
  | w :: ws => '"' :: (escChars w.data ++ ['"', ','] ++ itemsChars ws)

/-- The serialization `JSON.stringify(usedWords)`: the document the persistence effect
`localStorage.setItem(STORAGE_KEY, JSON.stringify(usedWords))` writes. -/
def stringifyWords (ws : List String) : String :=
  String.mk ('[' :: itemsChars ws)

/-- Drop leading JSON whitespace. -/
def skipWs : List Char → List Char
  | [] => []
  | c :: cs => if c = ' ' ∨ c = '\n' ∨ c = '\t' ∨ c = '\r' then skipWs cs else c :: cs

/-- Scan a JSON string body (the opening quote already consumed),
accumulating characters in reverse in `acc`; returns the decoded string and
the remaining input, or an error for an unterminated or unsupported
escape.  Mirrors how `JSON.parse` reads the string literals that
`JSON.stringify` produces for control-character-free input. -/
def parseJsonString (acc : List Char) : List Char → Except String (String × List Char)
  | [] => .error "unterminated string"
  | c :: rest =>
    if c = '"' then .ok (String.mk acc.reverse, rest)
    else if c = '\\' then
      match rest with
      | [] => .error "unterminated escape"
      | d :: rest2 =>
        if d = '"' ∨ d = '\\' then parseJsonString (d :: acc) rest2
        else .error "unsupported escape"
    else parseJsonString (c :: acc) rest

/-- Read the elements of a JSON array of strings.  `cs` is positioned at
the start of an element (which must open with a quote); `acc` holds the
elements read so far, in reverse.  `fuel` bounds the number of elements
(each element consumes at least its opening quote, so the caller passes
the length of the remaining input). -/
def parseItemsLoop : ℕ → List String → List Char → Except String (List String)
  | 0, _, _ => .error "out of fuel"
  | fuel + 1, acc, cs =>
    match cs with
    | [] => .error "expected string"
    | c :: rest =>
      if c = '"' then
        match parseJsonString [] rest with
        | .error e => .error e
        | .ok (w, rest2) =>
          match skipWs rest2 with
          | [] => .error "unterminated array"
          | d :: rest3 =>
            if d = ',' then parseItemsLoop fuel (w :: acc) (skipWs rest3)
            else if d = ']' then
              if skipWs rest3 = [] then .ok (w :: acc).reverse
              else .error "trailing characters"
            else .error "expected comma or closing bracket"
      else .error "expected string"

/-- The parse function `JSON.parse` specialised to the documents this application stores: a
JSON array of strings.  Anything else — in particular any input that is
not well-formed JSON — is an error, exactly where `JSON.parse` throws. -/
def parseWordArray (s : String) : Except String (List String) :=
  match skipWs s.data with
  | [] => .error "expected array"
  | c :: rest =>
    if c = '[' then
      match skipWs rest with
      | [] => .error "unterminated array"
      | d :: tail =>
        if d = ']' then
          if skipWs tail = [] then .ok [] else .error "trailing characters"
        else parseItemsLoop (d :: tail).length [] (d :: tail)
    else .error "expected array"

/-- The `useState` initializer for `usedWords`:
`const saved = localStorage.getItem(STORAGE_KEY); return saved ? JSON.parse(saved) : []`.
A missing key (`null`) and the empty string are both falsy in JavaScript,
so they yield `[]` without parsing; any other value goes through
`JSON.parse`, whose exception (modelled as `Except.error`) propagates out
of the initializer. -/
def loadUsedWords (stored : Option String) : Except String (List String) :=
  match stored with
  | none => .ok []
  | some s => if s = "" then .ok [] else parseWordArray s

/-- One category record of the word pool: `interface CategoryData`. -/
structure CategoryData where
  color : String
  words : List String
deriving DecidableEq, Repr

/-- The word pool `WORD_CATEGORIES`: a mapping of category identifier to
category record, ordered as `Object.entries` enumerates it.  The concrete
pool is the static `data/questions.json`; all claims quantify over the
pool, so it is a parameter here. -/
abbrev Pool := List (String × CategoryData)

/-- One eligible pair: `interface AvailableWord`. -/
structure AvailableWord where
  category : String
  word : String
  color : String
deriving DecidableEq, Repr

instance : Inhabited AvailableWord := ⟨⟨"", "", ""⟩⟩

/-- The component state: every `useState` hook of `PictionaryWordGenerator`
that the core logic touches, together with the interval flag maintained by
the timer `useEffect`, the `localStorage` value under `STORAGE_KEY`, and a
counter of Alert Dispatcher invocations (`playTimeUpAlert` runs exactly
when `notify` does, so one counter stands for both). -/
structure GameState where
  usedWords : List String
  currentCategory : Option String
  currentWord : Option String
  isAllPlay : Bool
  timerDuration : ℕ
  timeRemaining : ℕ
  timerRunning : Bool
  wordRevealed : Bool
  /-- Whether the timer `useEffect` currently has an interval scheduled:
  it sets one when `timerRunning && timeRemaining > 0` and clears it
  otherwise. -/
  intervalScheduled : Bool
  /-- How many times `playTimeUpAlert` (and `notify`) have run. -/
  alertCount : ℕ
  /-- The `localStorage` value under `pictionary_used_words`. -/
  storage : Option String
deriving DecidableEq, Repr

/-- Source constant `ALL_PLAY_PROBABILITY = 0.2`. -/
def ALL_PLAY_PROBABILITY : ℚ := 1 / 5

/-- Source constant `TIMER_DURATION = 60`. -/
def TIMER_DURATION : ℕ := 60

/-- The timer `useEffect`: schedule the 1-second interval exactly when
`timerRunning && timeRemaining > 0`, clear it otherwise.  It re-runs after
every committed state change whose `timerRunning`/`timeRemaining`
dependencies changed; applying it unconditionally after each transition
gives the same flag, since the flag is a function of those two fields. -/
def timerEffect (s : GameState) : GameState :=
  { s with intervalScheduled := s.timerRunning && decide (0 < s.timeRemaining) }

/-- Handler `getAvailableWords`: every `(category, word, color)` whose word is not
in `usedWords`, in `Object.entries` order then word order. -/
def getAvailableWords (pool : Pool) (usedWords : List String) : List AvailableWord :=
  pool.flatMap fun c =>
    (c.2.words.filter fun w => !usedWords.contains w).map
      fun w => { category := c.1, word := w, color := c.2.color }

/-- JavaScript truthiness of `currentWord : string | null`: `null` and the
empty string are falsy. -/
def wordTruthy : Option String → Bool
  | none => false
  | some w => !(w == "")

/-- Handler `startTimer`: `if (currentWord) setTimerRunning(true)`.  No check of
`timeRemaining`. -/
def startTimer (s : GameState) : GameState :=
  if wordTruthy s.currentWord then { s with timerRunning := true } else s

/-- Handler `stopTimer`: `setTimerRunning(false)`. -/
def stopTimer (s : GameState) : GameState :=
  { s with timerRunning := false }

/-- Handler `restartTimer`: `setTimeRemaining(timerDuration); setTimerRunning(true)` —
unconditional. -/
def restartTimer (s : GameState) : GameState :=
  { s with timeRemaining := s.timerDuration, timerRunning := true }

/-- Handler `changeTimerDuration(duration)`. -/
def changeTimerDuration (d : ℕ) (s : GameState) : GameState :=
  { s with timerDuration := d, timeRemaining := d, timerRunning := false }

/-- Handler `resetGame`: clears `usedWords` and the selection/timer state, keeps
`timerDuration`, and calls `localStorage.removeItem(STORAGE_KEY)` — which
the `[usedWords]` persistence effect immediately follows by writing
`JSON.stringify([])`, so the stored value ends as the empty list. -/
def resetGame (s : GameState) : GameState :=
  { s with usedWords := [],
           currentCategory := none,
           currentWord := none,
           isAllPlay := false,
           timeRemaining := s.timerDuration,
           timerRunning := false,
           wordRevealed := false,
           storage := some (stringifyWords []) }

/-- Handler `selectRandomWord`, with its two `Math.random()` calls passed in as
`r1` (the index draw) and `r2` (the All-Play draw) and the `window.confirm`
answer as `confirmReset`.  The second component counts how many of the two
draws the handler actually consumed: JavaScript evaluates
`available[Math.floor(Math.random() * available.length)]` first (one
draw), then `selected.category == 'random' ? true : Math.random() < ALL_PLAY_PROBABILITY`,
whose conditional short-circuits before the second draw when the category
is the reserved identifier.  The `[usedWords]` persistence effect (which
runs after the handler whenever `setUsedWords` was called) is folded into
the `storage` field. -/
def selectRandomWordCore (pool : Pool) (r1 r2 : ℚ) (confirmReset : Bool)
    (s : GameState) : GameState × ℕ :=
  let available := getAvailableWords pool s.usedWords
  if available.length = 0 then
    if confirmReset then (resetGame s, 0) else (s, 0)
  else
    let selected := available.getD (⌊r1 * available.length⌋).toNat default
    let shouldBeAllPlay :=
      if selected.category = "random" then true else decide (r2 < ALL_PLAY_PROBABILITY)
    let used2 := s.usedWords ++ [selected.word]
    ({ s with currentCategory := some selected.category,
              currentWord := some selected.word,
              isAllPlay := shouldBeAllPlay,
              usedWords := used2,
              timeRemaining := s.timerDuration,
              timerRunning := false,
              wordRevealed := false,
              storage := some (stringifyWords used2) },
     if selected.category = "random" then 1 else 2)

/-- The drawn entry
`available[Math.floor(Math.random() * available.length)]` for index draw
`r1`, named so the theorems can speak about "the drawn pair". -/
def drawnWord (pool : Pool) (r1 : ℚ) (used : List String) : AvailableWord :=
  let available := getAvailableWords pool used
  available.getD (⌊r1 * (available.length : ℚ)⌋).toNat default

/-- The interval callback
`setTimeRemaining(prev => prev <= 1 ? (setTimerRunning(false); playTimeUpAlert(); notify(); 0) : prev - 1)`. -/
def tickBody (s : GameState) : GameState :=
  if s.timeRemaining ≤ 1 then
    { s with timeRemaining := 0, timerRunning := false, alertCount := s.alertCount + 1 }
  else
    { s with timeRemaining := s.timeRemaining - 1 }

/-- One firing of the interval: the callback only exists while the timer
`useEffect` has an interval scheduled. -/
def tick (s : GameState) : GameState :=
  if s.intervalScheduled then tickBody s else s

/-- The user intents and the timer tick, as one event alphabet.  A
`selectWord` event carries the two `Math.random()` draws and the
`window.confirm` answer used on the exhausted path. -/
inductive Op where
  | selectWord (r1 r2 : ℚ) (confirmReset : Bool)
  | start
  | stop
  | restart
  | changeDuration (d : ℕ)
  | tick
  | reset
deriving Repr

/-- One event-processing turn: the handler (or interval callback) runs,
then the timer `useEffect` re-establishes the interval flag before the
next event. -/
def step (pool : Pool) (op : Op) (s : GameState) : GameState :=
  timerEffect <|
    match op with
    | .selectWord r1 r2 c => (selectRandomWordCore pool r1 r2 c s).1
    | .start => startTimer s
    | .stop => stopTimer s
    | .restart => restartTimer s
    | .changeDuration d => changeTimerDuration d s
    | .tick => tick s
    | .reset => resetGame s

/-- The state after mount with `usedWords` rehydrated to `used`: word and
category null, default duration, not running, effects run once (the
persistence effect writes the rehydrated list back, the timer effect
leaves no interval scheduled). -/
def initState (used : List String) : GameState :=
  timerEffect
    { usedWords := used,
      currentCategory := none,
      currentWord := none,
      isAllPlay := false,
      timerDuration := TIMER_DURATION,
      timeRemaining := TIMER_DURATION,
      timerRunning := false,
      wordRevealed := false,
      intervalScheduled := false,
      alertCount := 0,
      storage := some (stringifyWords used) }

/-- Run a sequence of events from a state. -/
def runOps (pool : Pool) (l : List Op) (s : GameState) : GameState :=
  l.foldl (fun t op => step pool op t) s

/-- The timer invariant of the claims: Time-Remaining within
`[0, Duration]`, and an interval scheduled exactly while the timer is
running with time left. -/
def TimerInv (s : GameState) : Prop :=
  s.timeRemaining ≤ s.timerDuration ∧
    s.intervalScheduled = (s.timerRunning && decide (0 < s.timeRemaining))

instance (s : GameState) : Decidable (TimerInv s) := by
  unfold TimerInv; infer_instance

/-- The two-word sample pool of the spec scenarios. -/
def samplePool : Pool := [("animals", { color := "blue", words := ["cat", "dog"] })]

/-- A pool whose only category is the reserved identifier. -/
def randomPool : Pool := [("random", { color := "red", words := ["pantomime"] })]

/-- A state with the word `cat` selected and one second consumed. -/
def readyState : GameState :=
  { usedWords := ["cat"],
    currentCategory := some "animals",
    currentWord := some "cat",
    isAllPlay := false,
    timerDuration := 60,
    timeRemaining := 59,
    timerRunning := false,
    wordRevealed := false,
    intervalScheduled := false,
    alertCount := 0,
    storage := some (stringifyWords ["cat"]) }

/-- The state `readyState` after its countdown has expired. -/
def expiredState : GameState :=
  { readyState with timeRemaining := 0 }

/-- The state `readyState` with the countdown running at three seconds left. -/
def runningState : GameState :=
  { readyState with timeRemaining := 3, timerRunning := true, intervalScheduled := true }

/-- A state in which both sample words have been used. -/
def exhaustedState : GameState :=
  { readyState with usedWords := ["cat", "dog"],
                    storage := some (stringifyWords ["cat", "dog"]) }

/-- Applying `timerEffect` fixes every state whose interval flag already agrees with
its `timerRunning`/`timeRemaining` fields. -/
theorem timerEffect_eq_self (s : GameState)
    (h : s.intervalScheduled = (s.timerRunning && decide (0 < s.timeRemaining))) :
    timerEffect s = s := by
  cases s
  simp only [timerEffect] at h ⊢
  simp_all

/-- C8: for every state in which a word is selected, `restartTimer` sets
Time-Remaining to the current Duration and Timer Running to true,
regardless of the prior timer state. -/
theorem restart_resets_and_runs (pool : Pool) (s : GameState) (w : String)
    (hw : s.currentWord = some w) :
    (step pool Op.restart s).timeRemaining = s.timerDuration ∧
    (step pool Op.restart s).timerRunning = true :=
  ⟨rfl, rfl⟩

/-- Witness for C8: `restartTimer` from the expired sample state. -/
theorem restart_resets_and_runs_witness :
    expiredState.currentWord = some "cat" ∧
    (step samplePool Op.restart expiredState).timeRemaining = expiredState.timerDuration ∧
    (step samplePool Op.restart expiredState).timerRunning = true :=
  ⟨rfl, restart_resets_and_runs samplePool expiredState "cat" rfl⟩

/-- C9: `resetGame` empties the ledger in memory and in durable storage
(the stored value afterwards decodes to the empty list), returns the
session to Idle — Category and Word null, All-Play false, Timer Running
false, Word Revealed false, Time-Remaining equal to Duration — and leaves
Timer Duration unchanged. -/
theorem reset_clears_session (pool : Pool) (s : GameState) :
    (step pool Op.reset s).usedWords = [] ∧
    loadUsedWords (step pool Op.reset s).storage = .ok [] ∧
    (step pool Op.reset s).currentCategory = none ∧
    (step pool Op.reset s).currentWord = none ∧
    (step pool Op.reset s).isAllPlay = false ∧
    (step pool Op.reset s).timerRunning = false ∧
    (step pool Op.reset s).wordRevealed = false ∧
    (step pool Op.reset s).timeRemaining = (step pool Op.reset s).timerDuration ∧
    (step pool Op.reset s).timerDuration = s.timerDuration :=
  ⟨rfl, rfl, rfl, rfl, rfl, rfl, rfl, rfl, rfl⟩

/-- C10: when the eligible set is empty and the reset prompt is declined,
`selectRandomWord` returns early: the whole state — session fields, ledger
and stored ledger alike — is exactly unchanged, and no random draw is
consumed. -/
theorem exhausted_decline_noop (pool : Pool) (r1 r2 : ℚ) (s : GameState)
    (h : getAvailableWords pool s.usedWords = []) :
    selectRandomWordCore pool r1 r2 false s = (s, 0) := by
  simp [selectRandomWordCore, h]

/-- Witness for C10: both sample words already used, prompt declined. -/
theorem exhausted_decline_noop_witness :
    getAvailableWords samplePool exhaustedState.usedWords = [] ∧
    selectRandomWordCore samplePool 0 0 false exhaustedState = (exhaustedState, 0) :=
  ⟨by decide, exhausted_decline_noop samplePool 0 0 exhaustedState (by decide)⟩

/-- Counterexample to C1: in the expired sample state (word selected,
Time-Remaining 0, Timer Running false) `startTimer` is not a no-op — the
Timer Running component flips from false to true. -/
theorem start_at_zero_not_noop :
    expiredState.currentWord = some "cat" ∧
    expiredState.timeRemaining = 0 ∧
    expiredState.timerRunning = false ∧
    (step samplePool Op.start expiredState).timerRunning = true := by
  decide

/-- C1 as amended: `startTimer` checks only that a word is selected, so at
Time-Remaining 0 it still sets Timer Running to true; every other session
component is unchanged, no interval gets scheduled, and a subsequent tick
is a no-op — the countdown does not restart. -/
theorem start_at_zero_only_flips_running (pool : Pool) (s : GameState) (w : String)
    (hw : s.currentWord = some w) (hne : w ≠ "") (h0 : s.timeRemaining = 0) :
    (step pool Op.start s).timerRunning = true ∧
    (step pool Op.start s).timeRemaining = 0 ∧
    (step pool Op.start s).usedWords = s.usedWords ∧
    (step pool Op.start s).currentCategory = s.currentCategory ∧
    (step pool Op.start s).currentWord = s.currentWord ∧
    (step pool Op.start s).isAllPlay = s.isAllPlay ∧
    (step pool Op.start s).timerDuration = s.timerDuration ∧
    (step pool Op.start s).wordRevealed = s.wordRevealed ∧
    (step pool Op.start s).intervalScheduled = false ∧
    step pool Op.tick (step pool Op.start s) = step pool Op.start s := by
  have htr : wordTruthy s.currentWord = true := by
    rw [hw]; simpa [wordTruthy] using hne
  have hstep : step pool Op.start s = timerEffect { s with timerRunning := true } := by
    simp [step, startTimer, htr]
  have hsch : (step pool Op.start s).intervalScheduled = false := by
    rw [hstep]; simp [timerEffect, h0]
  refine ⟨?_, ?_, ?_, ?_, ?_, ?_, ?_, ?_, hsch, ?_⟩
  · rw [hstep]; rfl
  · rw [hstep]; simpa [timerEffect] using h0
  · rw [hstep]; rfl
  · rw [hstep]; rfl
  · rw [hstep]; rfl
  · rw [hstep]; rfl
  · rw [hstep]; rfl
  · rw [hstep]; rfl
  · show timerEffect (tick (step pool Op.start s)) = step pool Op.start s
    rw [tick, if_neg (by rw [hsch]; exact Bool.false_ne_true)]
    apply timerEffect_eq_self
    rw [hsch, hstep]
    simp [timerEffect, h0]

/-- The index `Math.floor(r * n)` lands strictly below `n` for a draw `r ∈ [0, 1)`
and a non-empty array. -/
theorem floor_toNat_lt (r : ℚ) (n : ℕ) (h0 : 0 ≤ r) (h1 : r < 1) (hn : n ≠ 0) :
    (⌊r * (n : ℚ)⌋).toNat < n := by
  have hn' : (0 : ℚ) < n := by exact_mod_cast Nat.pos_of_ne_zero hn
  have hflt : ⌊r * (n : ℚ)⌋ < (n : ℤ) := by
    rw [Int.floor_lt]
    push_cast
    calc r * n < 1 * n := mul_lt_mul_of_pos_right h1 hn'
    _ = n := one_mul _
  have hfnn : 0 ≤ ⌊r * (n : ℚ)⌋ := Int.floor_nonneg.mpr (mul_nonneg h0 hn'.le)
  omega

/-- The drawn entry `available[Math.floor(r * available.length)]` is a
member of `available`. -/
theorem drawn_mem (l : List AvailableWord) (r : ℚ)
    (h0 : 0 ≤ r) (h1 : r < 1) (hne : l ≠ []) :
    l.getD (⌊r * (l.length : ℚ)⌋).toNat default ∈ l := by
  have hlen : l.length ≠ 0 := by simpa using hne
  have hlt := floor_toNat_lt r l.length h0 h1 hlen
  rw [List.getD_eq_getElem l default hlt]
  exact List.getElem_mem hlt

/-- Witness for C1's amended statement, at the expired sample state. -/
theorem start_at_zero_only_flips_running_witness :
    (step samplePool Op.start expiredState).timerRunning = true ∧
    (step samplePool Op.start expiredState).timeRemaining = 0 ∧
    (step samplePool Op.start expiredState).usedWords = expiredState.usedWords ∧
    (step samplePool Op.start expiredState).currentCategory = expiredState.currentCategory ∧
    (step samplePool Op.start expiredState).currentWord = expiredState.currentWord ∧
    (step samplePool Op.start expiredState).isAllPlay = expiredState.isAllPlay ∧
    (step samplePool Op.start expiredState).timerDuration = expiredState.timerDuration ∧
    (step samplePool Op.start expiredState).wordRevealed = expiredState.wordRevealed ∧
    (step samplePool Op.start expiredState).intervalScheduled = false ∧
    step samplePool Op.tick (step samplePool Op.start expiredState) =
      step samplePool Op.start expiredState :=
  start_at_zero_only_flips_running samplePool expiredState "cat" rfl (by decide) rfl

/-- C5: a successful selection sets Category and Word to the drawn pair,
resets Time-Remaining to the current Duration, clears Timer Running and
Word Revealed, and appends exactly the drawn word to the ledger, which
therefore contains it afterwards. -/
theorem selection_success_updates (pool : Pool) (r1 r2 : ℚ) (c : Bool) (s : GameState)
    (h : getAvailableWords pool s.usedWords ≠ []) :
    (selectRandomWordCore pool r1 r2 c s).1.currentCategory =
      some (drawnWord pool r1 s.usedWords).category ∧
    (selectRandomWordCore pool r1 r2 c s).1.currentWord =
      some (drawnWord pool r1 s.usedWords).word ∧
    (selectRandomWordCore pool r1 r2 c s).1.timeRemaining = s.timerDuration ∧
    (selectRandomWordCore pool r1 r2 c s).1.timerRunning = false ∧
    (selectRandomWordCore pool r1 r2 c s).1.wordRevealed = false ∧
    (selectRandomWordCore pool r1 r2 c s).1.usedWords =
      s.usedWords ++ [(drawnWord pool r1 s.usedWords).word] ∧
    (drawnWord pool r1 s.usedWords).word ∈ (selectRandomWordCore pool r1 r2 c s).1.usedWords := by
  have hlen : ¬((getAvailableWords pool s.usedWords).length = 0) := by
    simpa [List.length_eq_zero] using h
  simp only [selectRandomWordCore, drawnWord, if_neg hlen]
  simp

/-- Witness for C5: selecting from the sample pool with an empty ledger. -/
theorem selection_success_updates_witness :
    getAvailableWords samplePool (initState []).usedWords ≠ [] ∧
    ((selectRandomWordCore samplePool (1/2) 0 false (initState [])).1.currentCategory =
        some (drawnWord samplePool (1/2) (initState []).usedWords).category ∧
      (selectRandomWordCore samplePool (1/2) 0 false (initState [])).1.currentWord =
        some (drawnWord samplePool (1/2) (initState []).usedWords).word ∧
      (selectRandomWordCore samplePool (1/2) 0 false (initState [])).1.timeRemaining =
        (initState []).timerDuration ∧
      (selectRandomWordCore samplePool (1/2) 0 false (initState [])).1.timerRunning = false ∧
      (selectRandomWordCore samplePool (1/2) 0 false (initState [])).1.wordRevealed = false ∧
      (selectRandomWordCore samplePool (1/2) 0 false (initState [])).1.usedWords =
        (initState []).usedWords ++ [(drawnWord samplePool (1/2) (initState []).usedWords).word] ∧
      (drawnWord samplePool (1/2) (initState []).usedWords).word ∈
        (selectRandomWordCore samplePool (1/2) 0 false (initState [])).1.usedWords) :=
  ⟨by decide, selection_success_updates samplePool (1/2) 0 false (initState []) (by decide)⟩

/-- C3: the eligible set computed by `getAvailableWords` holds exactly the
pool's (category, word) pairs whose word is not in the ledger; when it is
non-empty a selection draws a member of it as the new Category/Word, and
the Exhausted early return (which consumes no random draw) is taken if and
only if the set is empty. -/
theorem eligible_set_and_selection (pool : Pool) (r1 r2 : ℚ) (c : Bool) (s : GameState)
    (h0 : 0 ≤ r1) (h1 : r1 < 1) :
    (∀ a : AvailableWord,
        a ∈ getAvailableWords pool s.usedWords ↔
          ((∃ cd : CategoryData,
              (a.category, cd) ∈ pool ∧ a.word ∈ cd.words ∧ a.color = cd.color) ∧
            a.word ∉ s.usedWords)) ∧
    (getAvailableWords pool s.usedWords ≠ [] →
        drawnWord pool r1 s.usedWords ∈ getAvailableWords pool s.usedWords ∧
        (selectRandomWordCore pool r1 r2 c s).1.currentCategory =
          some (drawnWord pool r1 s.usedWords).category ∧
        (selectRandomWordCore pool r1 r2 c s).1.currentWord =
          some (drawnWord pool r1 s.usedWords).word) ∧
    (getAvailableWords pool s.usedWords = [] ↔
        (selectRandomWordCore pool r1 r2 c s).2 = 0) := by
  refine ⟨fun a => ?_, fun hne => ?_, ?_⟩
  · simp only [getAvailableWords, List.mem_flatMap, List.mem_map, List.mem_filter]
    constructor
    · rintro ⟨ckv, hp, w, ⟨hwmem, hwnot⟩, rfl⟩
      refine ⟨⟨ckv.2, ?_, hwmem, rfl⟩, ?_⟩
      · simpa using hp
      · simpa using hwnot
    · rintro ⟨⟨cd, hp, hwmem, hcol⟩, hnot⟩
      refine ⟨(a.category, cd), hp, a.word, ⟨hwmem, by simpa using hnot⟩, ?_⟩
      cases a
      simp_all
  · have hlen : ¬((getAvailableWords pool s.usedWords).length = 0) := by
      simpa [List.length_eq_zero] using hne
    refine ⟨drawn_mem _ r1 h0 h1 hne, ?_, ?_⟩ <;>
      simp only [selectRandomWordCore, drawnWord, if_neg hlen]
  · by_cases he : getAvailableWords pool s.usedWords = []
    · have hlen : (getAvailableWords pool s.usedWords).length = 0 := by simp [he]
      simp only [selectRandomWordCore, if_pos hlen, he, true_iff]
      cases c <;> simp
    · have hlen : ¬((getAvailableWords pool s.usedWords).length = 0) := by
        simpa [List.length_eq_zero] using he
      simp only [selectRandomWordCore, if_neg hlen, he, false_iff]
      split <;> simp

/-- Witness for C3: the sample pool with the empty ledger. -/
theorem eligible_set_and_selection_witness :
    0 ≤ (1 : ℚ)/2 ∧ (1 : ℚ)/2 < 1 ∧
    ((∀ a : AvailableWord,
        a ∈ getAvailableWords samplePool (initState []).usedWords ↔
          ((∃ cd : CategoryData,
              (a.category, cd) ∈ samplePool ∧ a.word ∈ cd.words ∧ a.color = cd.color) ∧
            a.word ∉ (initState []).usedWords)) ∧
      (getAvailableWords samplePool (initState []).usedWords ≠ [] →
          drawnWord samplePool (1/2) (initState []).usedWords ∈
            getAvailableWords samplePool (initState []).usedWords ∧
          (selectRandomWordCore samplePool (1/2) 0 false (initState [])).1.currentCategory =
            some (drawnWord samplePool (1/2) (initState []).usedWords).category ∧
          (selectRandomWordCore samplePool (1/2) 0 false (initState [])).1.currentWord =
            some (drawnWord samplePool (1/2) (initState []).usedWords).word) ∧
      (getAvailableWords samplePool (initState []).usedWords = [] ↔
          (selectRandomWordCore samplePool (1/2) 0 false (initState [])).2 = 0)) :=
  ⟨by norm_num, by norm_num,
    eligible_set_and_selection samplePool (1/2) 0 false (initState [])
      (by norm_num) (by norm_num)⟩

/-- C4: when the drawn pair's category is the reserved identifier
`random`, All-Play is forced true, only the index draw is consumed, and
the outcome does not depend on the second draw at all; otherwise both
draws are consumed and All-Play holds exactly when the second draw is
below `ALL_PLAY_PROBABILITY = 0.2`. -/
theorem allPlay_shortcircuit (pool : Pool) (r1 r2 r2' : ℚ) (c : Bool) (s : GameState)
    (h : getAvailableWords pool s.usedWords ≠ []) :
    ((drawnWord pool r1 s.usedWords).category = "random" →
      ((selectRandomWordCore pool r1 r2 c s).1.isAllPlay = true ∧
        (selectRandomWordCore pool r1 r2 c s).2 = 1 ∧
        selectRandomWordCore pool r1 r2 c s = selectRandomWordCore pool r1 r2' c s)) ∧
    ((drawnWord pool r1 s.usedWords).category ≠ "random" →
      ((selectRandomWordCore pool r1 r2 c s).2 = 2 ∧
        ((selectRandomWordCore pool r1 r2 c s).1.isAllPlay = true ↔
          r2 < ALL_PLAY_PROBABILITY))) := by
  have hlen : ¬((getAvailableWords pool s.usedWords).length = 0) := by
    simpa [List.length_eq_zero] using h
  have hd : drawnWord pool r1 s.usedWords =
      (getAvailableWords pool s.usedWords).getD
        (⌊r1 * ((getAvailableWords pool s.usedWords).length : ℚ)⌋).toNat default := rfl
  constructor
  · intro hcat
    rw [hd] at hcat
    simp only [selectRandomWordCore, if_neg hlen, if_pos hcat]
    simp
  · intro hcat
    rw [hd] at hcat
    simp only [selectRandomWordCore, if_neg hlen, if_neg hcat]
    simp

/-- Witness for C4: one instantiation through the forced branch on the
reserved-category pool and one through the probabilistic branch on the
sample pool. -/
theorem allPlay_shortcircuit_witness :
    ((drawnWord randomPool 0 [] ).category = "random" ∧
      (selectRandomWordCore randomPool 0 (1/2) false (initState [])).1.isAllPlay = true ∧
      (selectRandomWordCore randomPool 0 (1/2) false (initState [])).2 = 1 ∧
      selectRandomWordCore randomPool 0 (1/2) false (initState []) =
        selectRandomWordCore randomPool 0 (9/10) false (initState [])) ∧
    ((drawnWord samplePool 0 [] ).category ≠ "random" ∧
      (selectRandomWordCore samplePool 0 (1/2) false (initState [])).2 = 2 ∧
      ((selectRandomWordCore samplePool 0 (1/2) false (initState [])).1.isAllPlay = true ↔
        (1 : ℚ)/2 < ALL_PLAY_PROBABILITY)) :=
  ⟨⟨by simp [drawnWord, getAvailableWords, randomPool],
      (allPlay_shortcircuit randomPool 0 (1/2) (9/10) false (initState [])
        (by decide)).1 (by simp [drawnWord, getAvailableWords, randomPool, initState, timerEffect]),⟩,
    ⟨by simp [drawnWord, getAvailableWords, samplePool],
      (allPlay_shortcircuit samplePool 0 (1/2) (1/2) false (initState [])
        (by decide)).2 (by simp [drawnWord, getAvailableWords, samplePool, initState, timerEffect])⟩⟩

/-- Every step ends with the timer effect, so the interval flag of a
post-step state always agrees with its running flag and remaining time. -/
theorem timerInv_step (pool : Pool) (op : Op) (s : GameState) (h : TimerInv s) :
    TimerInv (step pool op s) := by
  obtain ⟨h1, h2⟩ := h
  cases op with
  | selectWord r1 r2 c =>
    refine ⟨?_, rfl⟩
    by_cases hl : (getAvailableWords pool s.usedWords).length = 0
    · cases c
      · simpa [step, selectRandomWordCore, hl, timerEffect] using h1
      · simp [step, selectRandomWordCore, hl, timerEffect, resetGame]
    · simp [step, selectRandomWordCore, hl, timerEffect]
  | start =>
    refine ⟨?_, rfl⟩
    by_cases hw : wordTruthy s.currentWord
    · simpa [step, startTimer, hw, timerEffect] using h1
    · simpa [step, startTimer, hw, timerEffect] using h1
  | stop => exact ⟨h1, rfl⟩
  | restart => exact ⟨Nat.le_refl _, rfl⟩
  | changeDuration d => exact ⟨Nat.le_refl _, rfl⟩
  | tick =>
    refine ⟨?_, rfl⟩
    by_cases hs : s.intervalScheduled = true
    · by_cases hr : s.timeRemaining ≤ 1
      · simp [step, tick, hs, tickBody, hr, timerEffect]
      · simp only [step, tick, hs, if_true, tickBody, hr, if_false, timerEffect]
        omega
    · simpa [step, tick, hs, timerEffect] using h1
  | reset => exact ⟨Nat.le_refl _, rfl⟩

/-- The timer invariant holds in the state the component mounts in. -/
theorem timerInv_init (used : List String) : TimerInv (initState used) :=
  ⟨Nat.le_refl _, rfl⟩

/-- The timer invariant is preserved along any event sequence. -/
theorem timerInv_runOps (pool : Pool) (used : List String) (l : List Op) :
    TimerInv (runOps pool l (initState used)) := by
  suffices h : ∀ (l : List Op) (s : GameState), TimerInv s → TimerInv (runOps pool l s) from
    h l _ (timerInv_init used)
  intro l
  induction l with
  | nil => exact fun s hs => hs
  | cons op l ih => exact fun s hs => ih _ (timerInv_step pool op s hs)

/-- C6: in every state reachable from the initial state by any sequence of
operations, Time-Remaining lies in `[0, Duration]` (the lower bound is the
type) and the interval flag agrees with `Timer Running ∧ Time-Remaining > 0`;
consequently a tick event in a state that is not running with time left
finds no scheduled interval and changes nothing. -/
theorem timer_invariant_reachable :
    (∀ (pool : Pool) (used : List String) (l : List Op),
        TimerInv (runOps pool l (initState used))) ∧
    (∀ (pool : Pool) (s : GameState), TimerInv s →
        s.timerRunning = false ∨ s.timeRemaining = 0 →
        step pool Op.tick s = s) := by
  refine ⟨fun pool used l => timerInv_runOps pool used l, fun pool s h hdis => ?_⟩
  have hsch : ¬(s.intervalScheduled = true) := by
    rcases hdis with h' | h' <;> simp [h.2, h']
  show timerEffect (tick s) = s
  rw [tick, if_neg hsch]
  exact timerEffect_eq_self s h.2

/-- Witness for C6: a concrete run, and a tick in the paused sample state. -/
theorem timer_invariant_reachable_witness :
    TimerInv (runOps samplePool [Op.start, Op.tick] (initState [])) ∧
    (TimerInv readyState ∧ readyState.timerRunning = false ∧
      step samplePool Op.tick readyState = readyState) :=
  ⟨timer_invariant_reachable.1 samplePool [] [Op.start, Op.tick],
    by decide, rfl,
    timer_invariant_reachable.2 samplePool readyState (by decide) (Or.inl rfl)⟩

/-- While running with an interval scheduled, `d` consecutive ticks from
Time-Remaining `d` reach 0, stop the timer, and fire the alert exactly
once. -/
theorem tick_countdown (pool : Pool) :
    ∀ (d : ℕ) (s : GameState), 0 < d → s.timeRemaining = d → s.timerRunning = true →
      s.intervalScheduled = true →
      ((step pool Op.tick)^[d] s).timeRemaining = 0 ∧
      ((step pool Op.tick)^[d] s).timerRunning = false ∧
      ((step pool Op.tick)^[d] s).alertCount = s.alertCount + 1 := by
  intro d
  induction d with
  | zero => exact fun s h => absurd h (lt_irrefl 0)
  | succ k ih =>
    intro s hpos htr hrun hsch
    have hstep : step pool Op.tick s = timerEffect (tickBody s) := by
      simp [step, tick, hsch]
    rcases Nat.eq_zero_or_pos k with hk | hk
    · subst hk
      rw [Function.iterate_one, hstep]
      have h1 : s.timeRemaining ≤ 1 := by omega
      simp [tickBody, h1, timerEffect]
    · rw [Function.iterate_succ_apply]
      have h2 : ¬(s.timeRemaining ≤ 1) := by omega
      have f1 : (step pool Op.tick s).timeRemaining = k := by
        rw [hstep]; simp [tickBody, h2, timerEffect]; omega
      have f2 : (step pool Op.tick s).timerRunning = true := by
        rw [hstep]; simp [tickBody, h2, timerEffect, hrun]
      have f3 : (step pool Op.tick s).intervalScheduled = true := by
        rw [hstep]; simp [tickBody, h2, timerEffect, hrun]; omega
      have f4 : (step pool Op.tick s).alertCount = s.alertCount := by
        rw [hstep]; simp [tickBody, h2, timerEffect]
      have hrest := ih (step pool Op.tick s) hk f1 f2 f3
      exact ⟨hrest.1, hrest.2.1, by rw [hrest.2.2, f4]⟩

/-- C7: while running with an interval scheduled, a tick decrements
Time-Remaining by exactly 1; the tick from 1 stops the timer at 0 and
fires the alert exactly once, while every other tick keeps the timer
running and fires no alert; and `start()` followed by Time-Remaining many
ticks ends at 0, stopped, with exactly one alert fired. -/
theorem tick_decrement_and_expiry :
    (∀ (pool : Pool) (s : GameState),
        s.timerRunning = true → s.intervalScheduled = true → 0 < s.timeRemaining →
        ((step pool Op.tick s).timeRemaining = s.timeRemaining - 1 ∧
          (s.timeRemaining = 1 →
            (step pool Op.tick s).timerRunning = false ∧
            (step pool Op.tick s).timeRemaining = 0 ∧
            (step pool Op.tick s).alertCount = s.alertCount + 1) ∧
          (1 < s.timeRemaining →
            (step pool Op.tick s).timerRunning = true ∧
            (step pool Op.tick s).alertCount = s.alertCount))) ∧
    (∀ (pool : Pool) (s : GameState) (w : String),
        s.currentWord = some w → w ≠ "" → s.timerRunning = false → 0 < s.timeRemaining →
        (((step pool Op.tick)^[s.timeRemaining] (step pool Op.start s)).timeRemaining = 0 ∧
          ((step pool Op.tick)^[s.timeRemaining] (step pool Op.start s)).timerRunning = false ∧
          ((step pool Op.tick)^[s.timeRemaining] (step pool Op.start s)).alertCount =
            s.alertCount + 1)) := by
  constructor
  · intro pool s hrun hsch hpos
    have hstep : step pool Op.tick s = timerEffect (tickBody s) := by
      simp [step, tick, hsch]
    refine ⟨?_, fun he => ?_, fun hg => ?_⟩
    · rw [hstep]
      by_cases h1 : s.timeRemaining ≤ 1
      · simp [tickBody, h1, timerEffect]
      · simp [tickBody, h1, timerEffect]
    · have h1 : s.timeRemaining ≤ 1 := by omega
      rw [hstep]
      simp [tickBody, h1, timerEffect]
    · have h1 : ¬(s.timeRemaining ≤ 1) := by omega
      rw [hstep]
      simp [tickBody, h1, timerEffect, hrun]
  · intro pool s w hw hne hrun0 hpos
    have htruthy : wordTruthy s.currentWord = true := by
      rw [hw]; simpa [wordTruthy] using hne
    have hstart : step pool Op.start s = timerEffect { s with timerRunning := true } := by
      simp [step, startTimer, htruthy]
    have f1 : (step pool Op.start s).timeRemaining = s.timeRemaining := by rw [hstart]; rfl
    have f2 : (step pool Op.start s).timerRunning = true := by rw [hstart]; rfl
    have f3 : (step pool Op.start s).intervalScheduled = true := by
      rw [hstart]; simp [timerEffect, hpos]
    have f4 : (step pool Op.start s).alertCount = s.alertCount := by rw [hstart]; rfl
    have h := tick_countdown pool s.timeRemaining (step pool Op.start s) hpos f1 f2 f3
    exact ⟨h.1, h.2.1, by rw [h.2.2, f4]⟩

/-- Witness for C7: a tick of the running sample state, and the full
start-then-59-ticks scenario from the paused sample state. -/
theorem tick_decrement_and_expiry_witness :
    ((step samplePool Op.tick runningState).timeRemaining =
        runningState.timeRemaining - 1 ∧
      (runningState.timeRemaining = 1 →
        (step samplePool Op.tick runningState).timerRunning = false ∧
        (step samplePool Op.tick runningState).timeRemaining = 0 ∧
        (step samplePool Op.tick runningState).alertCount = runningState.alertCount + 1) ∧
      (1 < runningState.timeRemaining →
        (step samplePool Op.tick runningState).timerRunning = true ∧
        (step samplePool Op.tick runningState).alertCount = runningState.alertCount)) ∧
    (((step samplePool Op.tick)^[readyState.timeRemaining]
          (step samplePool Op.start readyState)).timeRemaining = 0 ∧
      ((step samplePool Op.tick)^[readyState.timeRemaining]
          (step samplePool Op.start readyState)).timerRunning = false ∧
      ((step samplePool Op.tick)^[readyState.timeRemaining]
          (step samplePool Op.start readyState)).alertCount = readyState.alertCount + 1) :=
  ⟨tick_decrement_and_expiry.1 samplePool runningState rfl rfl (by decide),
    tick_decrement_and_expiry.2 samplePool readyState "cat" rfl (by decide) rfl (by decide)⟩

/-- Rebuilding a string from its characters is the identity. -/
theorem mk_data (s : String) : String.mk s.data = s := rfl

/-- Function `skipWs` keeps a list headed by a non-whitespace character. -/
theorem skipWs_cons (c : Char) (l : List Char)
    (h : ¬(c = ' ' ∨ c = '\n' ∨ c = '\t' ∨ c = '\r')) : skipWs (c :: l) = c :: l := by
  simp only [skipWs, if_neg h]

/-- The scanner returns at a closing quote. -/
theorem parseJsonString_quote (acc rest : List Char) :
    parseJsonString acc ('"' :: rest) = .ok (String.mk acc.reverse, rest) := by
  rw [parseJsonString.eq_def]
  simp

/-- The scanner unescapes a backslash-prefixed quote or backslash. -/
theorem parseJsonString_escStep (acc rest : List Char) (d : Char)
    (h : d = '"' ∨ d = '\\') :
    parseJsonString acc ('\\' :: d :: rest) = parseJsonString (d :: acc) rest := by
  rw [parseJsonString.eq_def]
  simp [h]

/-- The scanner keeps any other character as is. -/
theorem parseJsonString_plain (acc rest : List Char) (c : Char)
    (h1 : ¬(c = '"')) (h2 : ¬(c = '\\')) :
    parseJsonString acc (c :: rest) = parseJsonString (c :: acc) rest := by
  rw [parseJsonString.eq_def]
  simp [h1, h2]

/-- Scanning the serialized form of a word up to its closing quote decodes
the word back and leaves the rest of the input untouched. -/
theorem parseJsonString_escChars (cs : List Char) : ∀ (acc rest : List Char),
    parseJsonString acc (escChars cs ++ '"' :: rest) =
      .ok (String.mk (acc.reverse ++ cs), rest) := by
  induction cs with
  | nil =>
    intro acc rest
    simp only [escChars, List.nil_append, parseJsonString_quote, List.append_nil]
  | cons c cs ih =>
    intro acc rest
    by_cases hc : c = '"' ∨ c = '\\'
    · rw [show escChars (c :: cs) = '\\' :: c :: escChars cs by simp [escChars, hc],
        List.cons_append, List.cons_append, parseJsonString_escStep _ _ _ hc,
        ih (c :: acc) rest]
      simp
    · have hq : ¬(c = '"') := fun h => hc (Or.inl h)
      have hb : ¬(c = '\\') := fun h => hc (Or.inr h)
      rw [show escChars (c :: cs) = c :: escChars cs by simp [escChars, hc],
        List.cons_append, parseJsonString_plain _ _ _ hq hb, ih (c :: acc) rest]
      simp

/-- The serialized elements of a non-empty word list start with a quote,
so leading-whitespace skipping leaves them untouched. -/
theorem skipWs_itemsChars (l : List String) (h : l ≠ []) :
    skipWs (itemsChars l) = itemsChars l := by
  cases l with
  | nil => exact absurd rfl h
  | cons w ws => cases ws <;> simp [itemsChars, skipWs]

/-- A word list never has more elements than its serialization has
characters after the opening bracket. -/
theorem length_le_itemsChars (l : List String) : l.length ≤ (itemsChars l).length := by
  induction l with
  | nil => simp [itemsChars]
  | cons w ws ih =>
    cases ws with
    | nil => simp [itemsChars]
    | cons v vs =>
      simp only [itemsChars, List.length_cons, List.length_append] at ih ⊢
      omega

/-- The element loop of the parser decodes the serialized elements of any
non-empty word list, given fuel for at least one iteration per element. -/
theorem parseItemsLoop_itemsChars (l : List String) : ∀ (acc : List String) (fuel : ℕ),
    l ≠ [] → l.length ≤ fuel →
    parseItemsLoop fuel acc (itemsChars l) = .ok (acc.reverse ++ l) := by
  induction l with
  | nil => intro acc fuel h; exact absurd rfl h
  | cons w ws ih =>
    intro acc fuel hne hlen
    cases fuel with
    | zero => simp at hlen
    | succ f =>
      cases ws with
      | nil =>
        simp only [itemsChars, parseItemsLoop, if_true]
        rw [show escChars w.data ++ ['"', ']'] = escChars w.data ++ '"' :: [']'] from rfl,
          parseJsonString_escChars w.data [] [']']]
        simp [skipWs, mk_data]
      | cons v vs =>
        have hlen2 : (v :: vs).length ≤ f := by
          simp only [List.length_cons] at hlen ⊢
          omega
        have hsk : skipWs (',' :: itemsChars (v :: vs)) = ',' :: itemsChars (v :: vs) :=
          skipWs_cons _ _ (by decide)
        have hsk2 : skipWs (itemsChars (v :: vs)) = itemsChars (v :: vs) :=
          skipWs_itemsChars (v :: vs) (by simp)
        have hih := ih (w :: acc) f (by simp) hlen2
        simp only [itemsChars, parseItemsLoop, if_true]
        rw [show escChars w.data ++ ['"', ','] ++ itemsChars (v :: vs) =
            escChars w.data ++ '"' :: ',' :: itemsChars (v :: vs) by simp,
          parseJsonString_escChars w.data [] (',' :: itemsChars (v :: vs))]
        simp [mk_data, hsk, hsk2, hih]

/-- The serialization of a word list is never the empty string. -/
theorem stringifyWords_ne_empty (ws : List String) : stringifyWords ws ≠ "" := by
  intro h
  have hd : '[' :: itemsChars ws = ([] : List Char) := congrArg String.data h
  exact List.cons_ne_nil _ _ hd

/-- Parsing inverts serialization: the stored ledger always decodes to the
list that was written. -/
theorem parseWordArray_stringifyWords (ws : List String) :
    parseWordArray (stringifyWords ws) = .ok ws := by
  cases ws with
  | nil => rfl
  | cons w l =>
    obtain ⟨t, ht⟩ : ∃ t, itemsChars (w :: l) = '"' :: t := by
      cases l <;> exact ⟨_, rfl⟩
    have hskip : skipWs (itemsChars (w :: l)) = itemsChars (w :: l) :=
      skipWs_itemsChars (w :: l) (by simp)
    have hloop := parseItemsLoop_itemsChars (w :: l) [] (itemsChars (w :: l)).length
      (by simp) (length_le_itemsChars (w :: l))
    simp only [parseWordArray, stringifyWords]
    rw [ht] at hskip hloop ⊢
    rw [show skipWs ('[' :: '"' :: t) = '[' :: '"' :: t from skipWs_cons _ _ (by decide)]
    simp [hskip]
    simpa using hloop

/-- Counterexample to C2: with `oops` stored under the ledger key the load
does not return the empty set — `JSON.parse` throws, and the failure
escapes the initializer. -/
theorem load_malformed_throws :
    loadUsedWords (some "oops") = Except.error "expected array" ∧
    ∀ ws : List String, loadUsedWords (some "oops") ≠ Except.ok ws :=
  ⟨rfl, fun ws h => by
    have h2 : (Except.error "expected array" : Except String (List String)) = Except.ok ws := h
    exact Except.noConfusion h2⟩

/-- C2 as amended: the ledger load returns the empty set when the key is
missing (or holds the empty string, which JavaScript treats as falsy), and
returns the stored word list whenever the value is a well-formed
serialized list — the control-character-free case in which the model's
serializer agrees with `JSON.stringify`; but a malformed value makes the
load fail instead of falling back to the empty set. -/
theorem load_missing_empty_and_roundtrip (ws : List String)
    (hclean : ∀ w ∈ ws, ∀ ch ∈ w.data, 32 ≤ ch.toNat) :
    loadUsedWords none = .ok [] ∧
    loadUsedWords (some "") = .ok [] ∧
    loadUsedWords (some (stringifyWords ws)) = .ok ws := by
  refine ⟨rfl, rfl, ?_⟩
  simp only [loadUsedWords, if_neg (stringifyWords_ne_empty ws)]
  exact parseWordArray_stringifyWords ws

/-- Witness for C2's amended statement, storing the two sample words. -/
theorem load_missing_empty_and_roundtrip_witness :
    (∀ w ∈ ["cat", "dog"], ∀ ch ∈ w.data, 32 ≤ ch.toNat) ∧
    loadUsedWords none = .ok [] ∧
    loadUsedWords (some "") = .ok [] ∧
    loadUsedWords (some (stringifyWords ["cat", "dog"])) = .ok ["cat", "dog"] :=
  ⟨by decide, load_missing_empty_and_roundtrip ["cat", "dog"] (by decide)⟩

end Picto
